import Mathlib

/-!
Verification of the message-body resolution pipeline of the PowerLeads
IMAP proxy (`src/index.js`).

The JavaScript code is shallowly embedded: JavaScript values that flow
through the part-structure code are modelled by an explicit `JsVal` type
(with JavaScript truthiness), thrown exceptions by `Option`/`none`, and
the two external capabilities (IMAP part retrieval and MIME parsing) by
explicit oracle functions passed as parameters.
-/

namespace ImapProxy

mutual

/-- Model of the JavaScript values handled by the part-structure code of
`src/index.js`.  A part-descriptor object carries the fields read by the
code — `type`, `subtype`, `partID` (absent field = `none`) and `parts`
(absent field = `vundefined`).  Arrays are `varr` over the mutually inductive
`JsList` so that the structure traversal is structurally recursive. -/
inductive JsVal : Type where
  | vnull : JsVal
  | vundefined : JsVal
  | vbool : Bool → JsVal
  | vnum : Int → JsVal
  | vstr : String → JsVal
  | vobj : Option String → Option String → Option String → JsVal → JsVal
  | varr : JsList → JsVal

/-- A JavaScript array of `JsVal`. -/
inductive JsList : Type where
  | nil : JsList
  | cons : JsVal → JsList → JsList

end

/-- JavaScript truthiness of a `JsVal` (objects and arrays are always
truthy; `null`, `undefined`, `false`, `0` and `""` are falsy). -/
def truthy : JsVal → Bool
  | .vnull => false
  | .vundefined => false
  | .vbool b => b
  | .vnum n => n != 0
  | .vstr s => s != ""
  | .vobj _ _ _ _ => true
  | .varr _ => true

/-- The predicate `p.type === 'text' && p.subtype === 'html'` from
`findBestPart` (src/index.js line 59); reading a field of a non-object
yields `undefined`, which is not `=== 'text'`. -/
def isHtmlPart : JsVal → Bool
  | .vobj t s _ _ => t == some "text" && s == some "html"
  | _ => false

/-- The predicate `p.type === 'text' && p.subtype === 'plain'` from
`findBestPart` (src/index.js line 63). -/
def isPlainPart : JsVal → Bool
  | .vobj t s _ _ => t == some "text" && s == some "plain"
  | _ => false

/-- The `partID` field of a value (`undefined` on non-objects). -/
def partIDOf : JsVal → Option String
  | .vobj _ _ pid _ => pid
  | _ => none

/-- JavaScript falsiness of a string-or-absent value (`undefined`, `null`
and `""` are falsy). -/
def jsFalsyStr : Option String → Bool
  | none => true
  | some s => s == ""

mutual

/-- The `traverse` closure inside `findBestPart` (src/index.js lines
39-49) applied to a single value: arrays delegate to `travArr`; a
non-null object is pushed and, when its `parts` field is truthy,
traversal recurses into it; primitives, `null` and `undefined`
contribute nothing.  `none` models a thrown exception. -/
def travVal : JsVal → Option (List JsVal)
  | .varr es => travArr es
  | .vobj t s i ps =>
    if truthy ps then
      match travVal ps with
      | some kids => some (.vobj t s i ps :: kids)
      | none => none
    else some [.vobj t s i ps]
  | _ => some []

/-- The `p.forEach(part => ...)` loop of `traverse` over an array: every
element is pushed (then its `parts`, when truthy, are traversed in
place, before the following siblings).  Reading `.parts` of a `null` or
`undefined` element throws a TypeError, modelled as `none`. -/
def travArr : JsList → Option (List JsVal)
  | .nil => some []
  | .cons .vnull _ => none
  | .cons .vundefined _ => none
  | .cons (.vobj t s i ps) tl =>
    if truthy ps then
      match travVal ps, travArr tl with
      | some kids, some tail => some (.vobj t s i ps :: (kids ++ tail))
      | _, _ => none
    else
      match travArr tl with
      | some tail => some (.vobj t s i ps :: tail)
      | none => none
  | .cons e tl =>
    match travArr tl with
    | some tail => some (e :: tail)
    | none => none

end

/-- The selection phase of `findBestPart` (src/index.js lines 58-66):
first `flatParts.find` of a text/html part, then of a text/plain part,
else `null`. -/
def selectBestPart (flatParts : List JsVal) : Option JsVal :=
  match flatParts.find? isHtmlPart with
  | some p => some p
  | none =>
    match flatParts.find? isPlainPart with
    | some p => some p
    | none => none

/-- `findBestPart` (src/index.js lines 35-67): a falsy structure yields
`null`; a traversal exception is caught and yields `null`; otherwise the
best part is selected from the flattened list. -/
def findBestPart (struct : JsVal) : Option JsVal :=
  if truthy struct then
    match travVal struct with
    | none => none
    | some flatParts => selectBestPart flatParts
  else none

/-- Raw part content as returned by `connection.getPartData`: either a
JavaScript string or a Buffer of bytes (a Buffer is truthy even when
empty; a string is falsy exactly when empty). -/
inductive JsData : Type where
  | jstr : String → JsData
  | jbuf : List Nat → JsData
deriving DecidableEq

/-- JavaScript truthiness of raw part content. -/
def dataTruthy : JsData → Bool
  | .jstr s => s != ""
  | .jbuf _ => true

/-- JavaScript falsiness of the `partData` variable (initially `null`). -/
def jsFalsyData : Option JsData → Bool
  | none => true
  | some d => !dataTruthy d

/-- Outcome of one `getPartDataWithTimeout` call as observed by its
caller: the promise resolves with data, rejects with the timeout error
(`"Body fetch timeout"`), or rejects with the retrieval's error. -/
inductive FetchOutcome : Type where
  | success : JsData → FetchOutcome
  | timeout : FetchOutcome
  | fetchError : String → FetchOutcome
deriving DecidableEq

/-- The fixed fallback part `{ partID: '1', type: 'text', subtype:
'plain' }` of src/index.js line 160. -/
def fallbackPart : JsVal :=
  .vobj (some "text") (some "plain") (some "1") .vundefined

/-- The `attributes` object of a search-result item: the fields `uid`
and `struct` read by the handler. -/
structure Attrs : Type where
  uid : Option Nat := none
  struct : JsVal := .vundefined

/-- The body-resolution chain of the `/fetch` handler (src/index.js
lines 141-164), for one message, given a fetch oracle deciding the
outcome of each `getPartDataWithTimeout` call.  Returns the final
`partData`, the final `fetchError`, and the trace of parts for which a
fetch was attempted, in order.  Primary attempt: only when
`item.attributes && item.attributes.struct` and `findBestPart` returns a
part with a truthy `partID`.  Fallback attempt: the literal guard is
`!partData && !fetchError`; a failed fallback is swallowed without
setting `fetchError`. -/
def resolveBodyT (fetch : JsVal → FetchOutcome) (attributes : Option Attrs) :
    Option JsData × Option String × List JsVal :=
  let prim : Option JsData × Option String × List JsVal :=
    match attributes with
    | none => (none, none, [])
    | some a =>
      if truthy a.struct then
        match findBestPart a.struct with
        | none => (none, none, [])
        | some bp =>
          if jsFalsyStr (partIDOf bp) then (none, none, [])
          else
            match fetch bp with
            | .success d => (some d, none, [bp])
            | .timeout => (none, some "Body fetch timeout", [bp])
            | .fetchError m => (none, some m, [bp])
      else (none, none, [])
  if jsFalsyData prim.1 && jsFalsyStr prim.2.1 then
    match fetch fallbackPart with
    | .success d => (some d, prim.2.1, prim.2.2 ++ [fallbackPart])
    | .timeout => (prim.1, prim.2.1, prim.2.2 ++ [fallbackPart])
    | .fetchError _ => (prim.1, prim.2.1, prim.2.2 ++ [fallbackPart])
  else prim

/-- Result object of `simpleParser`: the fields read by the handler
(`text`, `html`, `textAsHtml`), each possibly absent/false. -/
structure ParseResult : Type where
  text : Option String := none
  html : Option String := none
  textAsHtml : Option String := none
deriving DecidableEq

/-- JavaScript `x || ""` on a string-or-absent value. -/
def jsStrOr : Option String → String
  | some s => s
  | none => ""

/-- JavaScript `a || b` on string-or-absent values. -/
def jsOrOpt (a b : Option String) : Option String :=
  if jsFalsyStr a then b else a

/-- The body-decoding step of the handler (src/index.js lines 166-177):
truthy `partData` is parsed (a parse exception is caught and yields the
literal `"(Parsing Failed)"` with `bodyHtml` left `""`); falsy
`partData` yields the literal unavailable-content marker.  The final
`|| ""` of the record construction is folded in. -/
def bodiesOf (parse : JsData → Option ParseResult) (partData : Option JsData) :
    String × String :=
  match partData with
  | some d =>
    if dataTruthy d then
      match parse d with
      | some pr => (jsStrOr pr.text, jsStrOr (jsOrOpt pr.html pr.textAsHtml))
      | none => ("(Parsing Failed)", "")
    else ("[Content could not be fetched automatically. Please check mail server.]", "")
  | none => ("[Content could not be fetched automatically. Please check mail server.]", "")

/-- Header block of a message: each header maps to its list of values
(the code reads only element `[0]`). -/
structure Headers : Type where
  subject : Option (List String) := none
  fromAddr : Option (List String) := none
  date : Option (List String) := none
  messageId : Option (List String) := none
deriving DecidableEq

/-- One element of `item.parts`: its `which` tag and its `body`. -/
structure HeaderPart : Type where
  which : String
  body : Option Headers := none
deriving DecidableEq

/-- The `item.parts` value: either a proper array or a malformed value
on which `.find` throws a TypeError. -/
inductive ItemParts : Type where
  | notAList : ItemParts
  | list : List HeaderPart → ItemParts

/-- One IMAP search-result item as consumed by the handler loop. -/
structure ImapItem : Type where
  attributes : Option Attrs := none
  parts : ItemParts := .list []

/-- The final output record pushed onto `processedMessages`
(src/index.js lines 183-191).  `none` in an optional field models a
JavaScript `undefined`/`null` value. -/
structure MessageRecord : Type where
  uid : Nat
  messageId : Option String
  subject : Option String
  fromAddr : Option String
  date : Option String
  bodyText : String
  bodyHtml : String
deriving DecidableEq

/-- `headers.h ? headers.h[0] : default`: a present header (arrays are
truthy even when empty) yields its first element — `undefined` when the
list is empty — and an absent header yields the default. -/
def jsHdr (v : Option (List String)) (dflt : String) : Option String :=
  match v with
  | some l => l.head?
  | none => some dflt

/-- Processing of one search-result item inside the handler loop
(src/index.js lines 125-196), given the per-item fetch oracle, the parse
oracle and the current ISO time.  Returns `none` when the item's
processing throws (reading `.find` of a malformed `item.parts`), which
the per-item `catch` turns into "no record".  Otherwise returns the
record together with the trace of attempted part fetches. -/
def processItemT (fetch : ImapItem → JsVal → FetchOutcome)
    (parse : JsData → Option ParseResult) (nowIso : String)
    (shouldFetch : Bool) (item : ImapItem) :
    Option (MessageRecord × List JsVal) :=
  match item.parts with
  | .notAList => none
  | .list ps =>
    let headerPart := ps.find? fun p => p.which == "HEADER"
    let headers : Headers :=
      match headerPart with
      | some hp => match hp.body with | some b => b | none => {}
      | none => {}
    let uid : Nat :=
      match item.attributes with
      | some a => match a.uid with | some u => u | none => 0
      | none => 0
    let subject := jsHdr headers.subject "(No Subject)"
    let fromV := jsHdr headers.fromAddr "(Unknown)"
    let dateV := jsHdr headers.date nowIso
    let messageId : Option String :=
      match headers.messageId with
      | some l => l.head?
      | none => none
    if shouldFetch then
      let rb := resolveBodyT (fetch item) item.attributes
      let bodies := bodiesOf parse rb.1
      some ({ uid := uid, messageId := messageId, subject := subject,
              fromAddr := fromV, date := dateV,
              bodyText := bodies.1, bodyHtml := bodies.2 }, rb.2.2)
    else
      some ({ uid := uid, messageId := messageId, subject := subject,
              fromAddr := fromV, date := dateV,
              bodyText := "[No Text Body]", bodyHtml := "(No HTML)" }, [])

/-- `const shouldFetchBodies = fetchBodies !== false` (src/index.js line
91): strict inequality with the boolean `false`. -/
def shouldFetchBodies : JsVal → Bool
  | .vbool false => false
  | _ => true

/-- The `for (const item of searchResults)` loop (src/index.js lines
125-197): each item contributes its record unless its processing threw,
in which case the per-item `catch` skips it and the loop continues. -/
def processItems (fetch : ImapItem → JsVal → FetchOutcome)
    (parse : JsData → Option ParseResult) (nowIso : String)
    (shouldFetch : Bool) (items : List ImapItem) : List MessageRecord :=
  items.filterMap fun i => (processItemT fetch parse nowIso shouldFetch i).map Prod.fst

/-- `searchResults.reverse()` followed by `if (limit &&
searchResults.length > limit) searchResults.slice(0, limit)`
(src/index.js lines 114-119).  A `limit` of `0` is falsy, so no
truncation happens. -/
def retainResults (limit : Option Nat) (results : List ImapItem) : List ImapItem :=
  let reversed := results.reverse
  match limit with
  | none => reversed
  | some k => if 0 < k ∧ k < reversed.length then reversed.take k else reversed

/-- The whole batch phase of the `/fetch` handler with per-item fetch
traces: reverse, limit, then the per-item loop. -/
def processBatchT (fetch : ImapItem → JsVal → FetchOutcome)
    (parse : JsData → Option ParseResult) (nowIso : String)
    (fetchBodies : JsVal) (limit : Option Nat) (results : List ImapItem) :
    List (MessageRecord × List JsVal) :=
  (retainResults limit results).filterMap
    (processItemT fetch parse nowIso (shouldFetchBodies fetchBodies))

/-- The whole batch phase of the `/fetch` handler: the list of message
records of the response. -/
def processBatch (fetch : ImapItem → JsVal → FetchOutcome)
    (parse : JsData → Option ParseResult) (nowIso : String)
    (fetchBodies : JsVal) (limit : Option Nat) (results : List ImapItem) :
    List MessageRecord :=
  processItems fetch parse nowIso (shouldFetchBodies fetchBodies)
    (retainResults limit results)

/-- Result of the `authenticate` middleware: `next()` was called, or a
403 response was sent. -/
inductive AuthResult : Type where
  | proceed : AuthResult
  | reject403 : AuthResult
deriving DecidableEq

/-- The `authenticate` middleware (src/index.js lines 24-32):
`if (!PROXY_SECRET) { warn } else if (authHeader !== PROXY_SECRET)
{ 403 } next()`.  A falsy configured secret (unset, or the empty
string) only warns; otherwise the request is rejected unless the
`x-proxy-secret` header is strictly equal to the secret. -/
def authenticate (proxySecret : Option String) (authHeader : Option String) :
    AuthResult :=
  match proxySecret with
  | none => .proceed
  | some s =>
    if s == "" then .proceed
    else if authHeader == some s then .proceed
    else .reject403

/-- Phase reached by one `/fetch` request before any message work:
Express runs `authenticate` before the handler, and the handler checks
the configuration before `Imap.connect` (src/index.js lines 88-99). -/
inductive FetchPhase : Type where
  | unauthorized : FetchPhase
  | badConfig : FetchPhase
  | sessionOpened : FetchPhase
deriving DecidableEq

/-- Gate structure of the `/fetch` endpoint: a request rejected by
`authenticate` never reaches the handler, so no IMAP session is opened;
an authenticated request without an `config.imap` object gets a 400
before connecting. -/
def fetchEndpointPhase (proxySecret authHeader : Option String)
    (hasImapConfig : Bool) : FetchPhase :=
  match authenticate proxySecret authHeader with
  | .reject403 => .unauthorized
  | .proceed => if hasImapConfig then .sessionOpened else .badConfig

/-- One asynchronous event observed by the promise built in
`getPartDataWithTimeout` (src/index.js lines 70-86): the timer fires, or
the underlying `connection.getPartData` promise resolves or rejects. -/
inductive RaceEvent : Type where
  | timerFire : RaceEvent
  | dataResolve : JsData → RaceEvent
  | dataReject : String → RaceEvent
deriving DecidableEq

/-- The settlement an event would cause on a pending promise: the timer
rejects with `"Body fetch timeout"`, data resolves with the content, an
error rejects with its message. -/
def settleOutcome : RaceEvent → FetchOutcome
  | .timerFire => .timeout
  | .dataResolve d => .success d
  | .dataReject m => .fetchError m

/-- State of the promise returned by `getPartDataWithTimeout`. -/
inductive PromiseState : Type where
  | pending : PromiseState
  | settled : FetchOutcome → PromiseState
deriving DecidableEq

/-- JavaScript promise settlement: `resolve`/`reject` settle a pending
promise and are no-ops on an already-settled one. -/
def stepPromise : PromiseState → RaceEvent → PromiseState
  | .pending, e => .settled (settleOutcome e)
  | .settled o, _ => .settled o

/-- Semantics of `getPartDataWithTimeout` over the sequence of
asynchronous events that occur, in order: the promise processes each
event under settle-once semantics. -/
def getPartDataRace (events : List RaceEvent) : PromiseState :=
  events.foldl stepPromise .pending

section Lemmas

/-- A settled promise is unaffected by any further events. -/
theorem foldl_stepPromise_settled (o : FetchOutcome) :
    ∀ events : List RaceEvent, events.foldl stepPromise (.settled o) = .settled o := by
  intro events
  induction events with
  | nil => rfl
  | cons e tl ih => simpa [stepPromise] using ih

/-- `List.find?` returns a satisfying element that is first in list
order: everything strictly before it fails the predicate. -/
theorem find?_eq_some_first {α : Type} (p : α → Bool) :
    ∀ (l : List α) (a : α), l.find? p = some a →
      p a = true ∧ ∃ l1 l2, l = l1 ++ a :: l2 ∧ ∀ x ∈ l1, p x = false := by
  intro l
  induction l with
  | nil => intro a h; simp [List.find?] at h
  | cons hd tl ih =>
    intro a h
    cases hp : p hd with
    | true =>
      rw [List.find?_cons_of_pos _ hp] at h
      cases h
      exact ⟨hp, [], tl, rfl, by intro x hx; cases hx⟩
    | false =>
      rw [List.find?_cons_of_neg _ (by simp [hp])] at h
      obtain ⟨hpa, l1, l2, heq, hall⟩ := ih a h
      refine ⟨hpa, hd :: l1, l2, by rw [heq]; rfl, ?_⟩
      intro x hx
      rcases List.mem_cons.mp hx with hx | hx
      · rwa [hx]
      · exact hall x hx

/-- A list with a satisfying member has a successful `find?`. -/
theorem find?_isSome_of_exists {α : Type} (p : α → Bool) (l : List α)
    (h : ∃ x ∈ l, p x = true) : ∃ a, l.find? p = some a := by
  cases hf : l.find? p with
  | some a => exact ⟨a, rfl⟩
  | none =>
    obtain ⟨x, hx, hpx⟩ := h
    have := List.find?_eq_none.mp hf x hx
    simp [hpx] at this

/-- `filterMap` keeps every element whose image is `some`. -/
theorem length_filterMap_of_isSome {α β : Type} (f : α → Option β) :
    ∀ l : List α, (∀ x ∈ l, (f x).isSome = true) →
      (l.filterMap f).length = l.length := by
  intro l
  induction l with
  | nil => intro _; rfl
  | cons hd tl ih =>
    intro h
    have hhd := h hd (List.mem_cons_self hd tl)
    cases hf : f hd with
    | none => rw [hf] at hhd; simp at hhd
    | some b =>
      have htl := ih fun x hx => h x (List.mem_cons_of_mem hd hx)
      simp [List.filterMap_cons, hf, htl]

end Lemmas

section Fixtures

/-- A text/html leaf part with `partID` `"1.2"`. -/
def htmlA : JsVal := .vobj (some "text") (some "html") (some "1.2") .vundefined

/-- A text/plain leaf part with `partID` `"2"`. -/
def plainA : JsVal := .vobj (some "text") (some "plain") (some "2") .vundefined

/-- A structure whose only node is the html part. -/
def structHtml : JsVal := .varr (.cons htmlA .nil)

/-- A structure with a well-formed html subtree followed by a `null`
array element, on which the traversal throws. -/
def structMixed : JsVal := .varr (.cons htmlA (.cons .vnull .nil))

/-- Attributes carrying `structHtml`. -/
def attrsHtml : Attrs := { uid := some 7, struct := structHtml }

/-- A minimal well-formed item: no attributes, empty parts array. -/
def itemE : ImapItem := {}

/-- A well-formed item with a given uid and no structure. -/
def itemU (n : Nat) : ImapItem :=
  { attributes := some { uid := some n, struct := .vundefined }, parts := .list [] }

/-- An item whose `parts` is malformed, so the loop body throws on it. -/
def badItem : ImapItem := { parts := .notAList }

/-- An item whose structure selects the html part. -/
def itemH : ImapItem := { attributes := some attrsHtml, parts := .list [] }

/-- A fetch oracle on which every part fetch times out. -/
def cFetch : ImapItem → JsVal → FetchOutcome := fun _ _ => .timeout

/-- A parse oracle on which `simpleParser` always throws. -/
def cParse : JsData → Option ParseResult := fun _ => none

/-- A per-part fetch oracle that always times out. -/
def fetchTimeoutAlways : JsVal → FetchOutcome := fun _ => .timeout

/-- A per-part fetch oracle that succeeds with the empty string. -/
def fetchEmpty : JsVal → FetchOutcome := fun _ => .success (.jstr "")

/-- A per-part fetch oracle that succeeds with `"hello"`. -/
def fetchHello : JsVal → FetchOutcome := fun _ => .success (.jstr "hello")

/-- A per-item fetch oracle that succeeds with `"hello"`. -/
def fetchHelloI : ImapItem → JsVal → FetchOutcome := fun _ _ => .success (.jstr "hello")

/-- The record produced for `itemE` when body fetching is disabled. -/
def recNB : MessageRecord :=
  { uid := 0, messageId := none, subject := some "(No Subject)",
    fromAddr := some "(Unknown)", date := some "t",
    bodyText := "[No Text Body]", bodyHtml := "(No HTML)" }

end Fixtures

/-- C1: the claim says that after a primary structural fetch ends in
Timeout or FetchError the fallback fetch is attempted exactly once.  The
code contradicts this (and its own comment "Fallback if structure
parsing failed or returned nothing, OR if first attempt failed"): the
guard `!partData && !fetchError` is false once `fetchError` is set, so
the fallback is skipped entirely.  Concretely, with a structure whose
selected html part times out, the attempted-fetch trace is just the
primary part and the fallback part is never fetched. -/
theorem C1_primary_failure_skips_fallback :
    resolveBodyT fetchTimeoutAlways (some attrsHtml)
      = (none, some "Body fetch timeout", [htmlA]) ∧
    fallbackPart ∉ [htmlA] := by
  refine ⟨rfl, ?_⟩
  intro hmem
  have h : fallbackPart = htmlA := List.mem_singleton.mp hmem
  rw [fallbackPart, htmlA] at h
  injection h with h1 h2 h3 h4
  exact absurd h2 (by decide)

/-- C2: over any flat part list, the selection phase returns the first
descriptor with `type == "text" and subtype == "html"` when one exists;
otherwise the first with `type == "text" and subtype == "plain"` when
one exists; otherwise none.  In particular any list containing an html
text part yields an html text part, whatever the order of the rest. -/
theorem C2_selectBestPart_order (l : List JsVal) :
    ((∃ x ∈ l, isHtmlPart x = true) →
      ∃ p l1 l2, selectBestPart l = some p ∧ isHtmlPart p = true ∧
        l = l1 ++ p :: l2 ∧ ∀ x ∈ l1, isHtmlPart x = false) ∧
    ((∀ x ∈ l, isHtmlPart x = false) →
      ((∃ x ∈ l, isPlainPart x = true) →
        ∃ p l1 l2, selectBestPart l = some p ∧ isPlainPart p = true ∧
          l = l1 ++ p :: l2 ∧ ∀ x ∈ l1, isPlainPart x = false) ∧
      ((∀ x ∈ l, isPlainPart x = false) → selectBestPart l = none)) := by
  constructor
  · intro hex
    obtain ⟨a, ha⟩ := find?_isSome_of_exists isHtmlPart l hex
    obtain ⟨hpa, l1, l2, heq, hall⟩ := find?_eq_some_first isHtmlPart l a ha
    exact ⟨a, l1, l2, by simp [selectBestPart, ha], hpa, heq, hall⟩
  · intro hnone
    have hfind : l.find? isHtmlPart = none :=
      List.find?_eq_none.mpr fun x hx => by simp [hnone x hx]
    constructor
    · intro hex
      obtain ⟨a, ha⟩ := find?_isSome_of_exists isPlainPart l hex
      obtain ⟨hpa, l1, l2, heq, hall⟩ := find?_eq_some_first isPlainPart l a ha
      exact ⟨a, l1, l2, by simp [selectBestPart, hfind, ha], hpa, heq, hall⟩
    · intro hnop
      have hfp : l.find? isPlainPart = none :=
        List.find?_eq_none.mpr fun x hx => by simp [hnop x hx]
      simp [selectBestPart, hfind, hfp]

/-- C2 witness: a list with a plain part before an html part still
selects the html part (first in order among the html parts). -/
theorem C2_selectBestPart_order_witness :
    (∃ x ∈ [plainA, htmlA], isHtmlPart x = true) ∧
    (∃ p l1 l2, selectBestPart [plainA, htmlA] = some p ∧ isHtmlPart p = true ∧
      [plainA, htmlA] = l1 ++ p :: l2 ∧ ∀ x ∈ l1, isHtmlPart x = false) :=
  have hmem : htmlA ∈ [plainA, htmlA] :=
    List.mem_cons_of_mem plainA (List.mem_singleton_self htmlA)
  ⟨⟨htmlA, hmem, rfl⟩, (C2_selectBestPart_order [plainA, htmlA]).1 ⟨htmlA, hmem, rfl⟩⟩

/-- C3 counterexample: the claim as stated fails when the successful
primary fetch returns a falsy value.  With raw content `""` the guard
`!partData && !fetchError` is true, so the fallback fetch is attempted
even though the primary structural fetch succeeded: the trace contains
the fallback part. -/
theorem C3_cex_empty_content_attempts_fallback :
    fetchEmpty htmlA = .success (.jstr "") ∧
    resolveBodyT fetchEmpty (some attrsHtml)
      = (some (.jstr ""), none, [htmlA, fallbackPart]) :=
  ⟨rfl, rfl⟩

/-- C3 (amended): when the selected best part is an html part with a
truthy `partID` and its fetch succeeds within the timeout with truthy
(non-empty) content, the resolved content is exactly that part's raw
bytes and no fallback fetch is attempted (the trace is the primary part
alone). -/
theorem C3_amended_primary_success_no_fallback (fetch : JsVal → FetchOutcome)
    (a : Attrs) (bp : JsVal) (d : JsData)
    (hstruct : truthy a.struct = true)
    (hbest : findBestPart a.struct = some bp)
    (_hhtml : isHtmlPart bp = true)
    (hpid : jsFalsyStr (partIDOf bp) = false)
    (hfetch : fetch bp = .success d)
    (hd : dataTruthy d = true) :
    resolveBodyT fetch (some a) = (some d, none, [bp]) := by
  simp [resolveBodyT, hstruct, hbest, hpid, hfetch, jsFalsyData, hd]

/-- C3 witness: a concrete html-only structure fetched with non-empty
content resolves to that content with no fallback attempt. -/
theorem C3_amended_primary_success_no_fallback_witness :
    truthy attrsHtml.struct = true ∧
    findBestPart attrsHtml.struct = some htmlA ∧
    isHtmlPart htmlA = true ∧
    jsFalsyStr (partIDOf htmlA) = false ∧
    fetchHello htmlA = .success (.jstr "hello") ∧
    dataTruthy (.jstr "hello") = true ∧
    resolveBodyT fetchHello (some attrsHtml) = (some (.jstr "hello"), none, [htmlA]) :=
  ⟨rfl, rfl, rfl, rfl, rfl, rfl,
    C3_amended_primary_success_no_fallback fetchHello attrsHtml htmlA (.jstr "hello")
      rfl rfl rfl rfl rfl rfl⟩

/-- C4 counterexample: the claim says a traversal error in one subtree
leaves nodes collected from other subtrees in the result.  The code's
`try/catch` wraps the whole traversal and returns `null`, so a `null`
element after a perfectly good html subtree discards everything:
`findBestPart` returns none instead of the html part. -/
theorem C4_cex_error_discards_whole_result :
    isHtmlPart htmlA = true ∧
    travVal structMixed = none ∧
    findBestPart structMixed = none :=
  ⟨rfl, rfl, rfl⟩

/-- C4 (amended): `findBestPart` is total (never raises): a falsy root
yields none, and a traversal error anywhere makes the whole flatten
contribute nothing — the entire result is empty, not just the failing
subtree. -/
theorem C4_amended_flatten_total_error_empties_all (struct : JsVal) :
    (truthy struct = false → findBestPart struct = none) ∧
    (travVal struct = none → findBestPart struct = none) := by
  constructor
  · intro h
    simp [findBestPart, h]
  · intro h
    cases ht : truthy struct with
    | false => simp [findBestPart, ht]
    | true => simp [findBestPart, ht, h]

/-- C4 witness: the amended statement at a null root and at a structure
whose traversal throws. -/
theorem C4_amended_flatten_total_error_empties_all_witness :
    (truthy JsVal.vnull = false ∧ findBestPart JsVal.vnull = none) ∧
    (travVal structMixed = none ∧ findBestPart structMixed = none) :=
  ⟨⟨rfl, (C4_amended_flatten_total_error_empties_all JsVal.vnull).1 rfl⟩,
   ⟨rfl, (C4_amended_flatten_total_error_empties_all structMixed).2 rfl⟩⟩

/-- C5 counterexample: the claim quantifies over every set limit `k < N`,
but a set limit of `0` is falsy in `if (limit && ...)`, so no truncation
happens: with one item and `limit = 0` the batch returns 1 record, not
0. -/
theorem C5_cex_limit_zero_no_truncation :
    0 < [itemE].length ∧
    ¬ (processBatch cFetch cParse "t" (.vbool false) (some 0) [itemE]).length = 0 := by
  constructor
  · decide
  · rw [show (processBatch cFetch cParse "t" (.vbool false) (some 0) [itemE]).length = 1
        from rfl]
    decide

/-- C5 (amended): for every set limit `k` with `0 < k < N`, the batch
retains exactly the first `k` items of the reversed (newest-first)
search results, and — when each retained item processes successfully —
returns exactly `k` records. -/
theorem C5_amended_reverse_take_limit (fetch : ImapItem → JsVal → FetchOutcome)
    (parse : JsData → Option ParseResult) (nowIso : String) (fetchBodies : JsVal)
    (items : List ImapItem) (k : Nat)
    (hk : 0 < k) (hlt : k < items.length)
    (hall : ∀ i ∈ items,
      (processItemT fetch parse nowIso (shouldFetchBodies fetchBodies) i).isSome = true) :
    retainResults (some k) items = items.reverse.take k ∧
    (processBatch fetch parse nowIso fetchBodies (some k) items).length = k := by
  have hcond : 0 < k ∧ k < items.reverse.length := ⟨hk, by simpa using hlt⟩
  have hretain : retainResults (some k) items = items.reverse.take k := by
    simp only [retainResults]
    rw [if_pos hcond]
  refine ⟨hretain, ?_⟩
  have key : ∀ i ∈ items.reverse.take k,
      ((processItemT fetch parse nowIso (shouldFetchBodies fetchBodies) i).map
        Prod.fst).isSome = true := by
    intro i hi
    have h1 := hall i (List.mem_reverse.mp (List.take_subset _ _ hi))
    cases hpi : processItemT fetch parse nowIso (shouldFetchBodies fetchBodies) i with
    | none => rw [hpi] at h1; simp at h1
    | some x => rfl
  have hlen : (items.reverse.take k).length = k := by
    rw [List.length_take]
    simp only [List.length_reverse]
    omega
  simp only [processBatch, processItems, hretain]
  rw [length_filterMap_of_isSome _ _ key, hlen]

/-- C5 witness: two items with limit 1 retain the single newest item and
return exactly one record. -/
theorem C5_amended_reverse_take_limit_witness :
    0 < 1 ∧ 1 < [itemE, itemE].length ∧
    retainResults (some 1) [itemE, itemE] = [itemE, itemE].reverse.take 1 ∧
    (processBatch cFetch cParse "t" (.vbool false) (some 1) [itemE, itemE]).length = 1 := by
  have hall : ∀ i ∈ [itemE, itemE],
      (processItemT cFetch cParse "t" (shouldFetchBodies (.vbool false)) i).isSome = true := by
    intro i hi
    rcases List.mem_cons.mp hi with h1 | h1
    · rw [h1]; rfl
    · rcases List.mem_cons.mp h1 with h2 | h2
      · rw [h2]; rfl
      · exact absurd h2 (List.not_mem_nil i)
  have h := C5_amended_reverse_take_limit cFetch cParse "t" (.vbool false)
      [itemE, itemE] 1 (by decide) (by decide) hall
  exact ⟨by decide, by decide, h.1, h.2⟩

/-- C6: the per-item `try/catch` isolates a throwing item: it
contributes no record while every other item is processed in order, and
`processItems` itself never raises. -/
theorem C6_item_throw_isolated (fetch : ImapItem → JsVal → FetchOutcome)
    (parse : JsData → Option ParseResult) (nowIso : String) (shouldFetch : Bool)
    (l1 l2 : List ImapItem) (bad : ImapItem)
    (hbad : bad.parts = .notAList) :
    processItems fetch parse nowIso shouldFetch (l1 ++ bad :: l2)
      = processItems fetch parse nowIso shouldFetch l1
        ++ processItems fetch parse nowIso shouldFetch l2 := by
  have hnone : processItemT fetch parse nowIso shouldFetch bad = none := by
    unfold processItemT
    rw [hbad]
  simp [processItems, List.filterMap_append, List.filterMap_cons, hnone]

/-- C6 witness: item 3 of 5 throwing yields exactly the 4 records of
items 1, 2, 4, 5 in order. -/
theorem C6_item_throw_isolated_witness :
    badItem.parts = ItemParts.notAList ∧
    processItems cFetch cParse "t" false ([itemU 1, itemU 2] ++ badItem :: [itemU 4, itemU 5])
      = processItems cFetch cParse "t" false [itemU 1, itemU 2]
        ++ processItems cFetch cParse "t" false [itemU 4, itemU 5] ∧
    (processItems cFetch cParse "t" false
        ([itemU 1, itemU 2] ++ badItem :: [itemU 4, itemU 5])).map MessageRecord.uid
      = [1, 2, 4, 5] := by
  refine ⟨rfl, ?_, ?_⟩
  · exact C6_item_throw_isolated cFetch cParse "t" false [itemU 1, itemU 2]
      [itemU 4, itemU 5] badItem rfl
  · decide

/-- C7: the promise built by `getPartDataWithTimeout` settles exactly
once, with the outcome of whichever asynchronous event occurs first —
timer elapsing yields Timeout, a retrieval error yields FetchError, a
completed retrieval yields Success — and any event arriving after
settlement (such as a retrieval result after the timeout) is discarded
without producing a second outcome. -/
theorem C7_race_settles_first_event (e : RaceEvent) (rest : List RaceEvent) :
    getPartDataRace (e :: rest) = .settled (settleOutcome e) ∧
    settleOutcome .timerFire = .timeout ∧
    (∀ d, settleOutcome (.dataResolve d) = .success d) ∧
    (∀ m, settleOutcome (.dataReject m) = .fetchError m) := by
  refine ⟨?_, rfl, fun d => rfl, fun m => rfl⟩
  show (e :: rest).foldl stepPromise .pending = PromiseState.settled (settleOutcome e)
  rw [List.foldl_cons]
  exact foldl_stepPromise_settled (settleOutcome e) rest

/-- Shape of an item's result when body fetching is disabled: the item
(when processable at all) contributes a record with the two literal
placeholders and an empty fetch trace. -/
theorem processItemT_no_bodies (fetch : ImapItem → JsVal → FetchOutcome)
    (parse : JsData → Option ParseResult) (nowIso : String) (i : ImapItem)
    (x : MessageRecord × List JsVal)
    (h : processItemT fetch parse nowIso false i = some x) :
    x.2 = [] ∧ x.1.bodyText = "[No Text Body]" ∧ x.1.bodyHtml = "(No HTML)" := by
  unfold processItemT at h
  cases hp : i.parts with
  | notAList =>
    rw [hp] at h
    exact Option.noConfusion h
  | list ps =>
    rw [hp] at h
    have h2 := Option.some.inj h
    rw [← h2]
    exact ⟨rfl, rfl, rfl⟩

/-- C8: a MIME-decoding failure for one message is local: that message's
record carries the literal decoding-failure marker as `bodyText` and the
empty string as `bodyHtml`, the message still contributes exactly one
record, and the records of every other message are exactly what they
would be on their own. -/
theorem C8_parse_failure_is_local (fetch : ImapItem → JsVal → FetchOutcome)
    (parse : JsData → Option ParseResult) (nowIso : String)
    (l1 l2 : List ImapItem) (item : ImapItem) (ps : List HeaderPart) (d : JsData)
    (hps : item.parts = .list ps)
    (hpd : (resolveBodyT (fetch item) item.attributes).1 = some d)
    (hd : dataTruthy d = true)
    (hparse : parse d = none) :
    (processItemT fetch parse nowIso true item).map (fun x => (x.1.bodyText, x.1.bodyHtml))
      = some ("(Parsing Failed)", "") ∧
    (processItems fetch parse nowIso true [item]).length = 1 ∧
    processItems fetch parse nowIso true (l1 ++ item :: l2)
      = processItems fetch parse nowIso true l1
        ++ processItems fetch parse nowIso true [item]
        ++ processItems fetch parse nowIso true l2 := by
  have hbodies : bodiesOf parse (resolveBodyT (fetch item) item.attributes).1
      = ("(Parsing Failed)", "") := by
    rw [hpd]
    simp [bodiesOf, hd, hparse]
  have h1 : (processItemT fetch parse nowIso true item).map
      (fun x => (x.1.bodyText, x.1.bodyHtml)) = some ("(Parsing Failed)", "") := by
    unfold processItemT
    rw [hps]
    simp [hbodies]
  cases hpi : processItemT fetch parse nowIso true item with
  | none => rw [hpi] at h1; simp at h1
  | some x =>
    rw [hpi] at h1
    refine ⟨h1, ?_, ?_⟩
    · simp [processItems, hpi]
    · simp [processItems, List.filterMap_append, List.filterMap_cons, hpi]

/-- C8 witness: a concrete item whose resolved content parses to an
exception yields the placeholder record and leaves the surrounding batch
records untouched. -/
theorem C8_parse_failure_is_local_witness :
    itemH.parts = ItemParts.list [] ∧
    (resolveBodyT (fetchHelloI itemH) itemH.attributes).1 = some (JsData.jstr "hello") ∧
    dataTruthy (JsData.jstr "hello") = true ∧
    cParse (JsData.jstr "hello") = none ∧
    (processItemT fetchHelloI cParse "t" true itemH).map
      (fun x => (x.1.bodyText, x.1.bodyHtml)) = some ("(Parsing Failed)", "") ∧
    processItems fetchHelloI cParse "t" true ([itemE] ++ itemH :: [itemE])
      = processItems fetchHelloI cParse "t" true [itemE]
        ++ processItems fetchHelloI cParse "t" true [itemH]
        ++ processItems fetchHelloI cParse "t" true [itemE] := by
  have h := C8_parse_failure_is_local fetchHelloI cParse "t" [itemE] [itemE] itemH []
      (JsData.jstr "hello") rfl rfl rfl rfl
  exact ⟨rfl, rfl, rfl, rfl, h.1, h.2.2⟩

/-- C9: with no configured (truthy) shared secret every request passes
authentication; with a configured secret a request passes exactly when
its `x-proxy-secret` header equals the secret, and a rejected request
gets the 403 phase, before any IMAP session is opened. -/
theorem C9_authenticate_gate (proxySecret authHeader : Option String)
    (hasImapConfig : Bool) :
    (jsFalsyStr proxySecret = true → authenticate proxySecret authHeader = .proceed) ∧
    (∀ s, proxySecret = some s → s ≠ "" →
      (authenticate proxySecret authHeader = .proceed ↔ authHeader = some s)) ∧
    (authenticate proxySecret authHeader = .reject403 →
      fetchEndpointPhase proxySecret authHeader hasImapConfig = .unauthorized) := by
  refine ⟨?_, ?_, ?_⟩
  · intro h
    cases proxySecret with
    | none => rfl
    | some s =>
      simp only [jsFalsyStr, beq_iff_eq] at h
      simp [authenticate, h]
  · intro s hs hne
    subst hs
    have hbeq : (s == "") = false := by simp [hne]
    cases hh : authHeader == some s with
    | true =>
      have heq := eq_of_beq hh
      simp [authenticate, hbeq, hh, heq]
    | false =>
      have hne2 : ¬ authHeader = some s := by
        intro he
        rw [he] at hh
        simp at hh
      simp [authenticate, hbeq, hh, hne2]
  · intro h
    simp [fetchEndpointPhase, h]

/-- C9 witness: open access without a secret; with secret `"s3cret"` the
matching header passes, a missing header is rejected with 403 and never
reaches the session phase. -/
theorem C9_authenticate_gate_witness :
    (jsFalsyStr (none : Option String) = true ∧
      authenticate none (some "x") = .proceed) ∧
    (authenticate (some "s3cret") (some "s3cret") = .proceed ↔
      (some "s3cret" : Option String) = some "s3cret") ∧
    (authenticate (some "s3cret") none = .proceed ↔
      (none : Option String) = some "s3cret") ∧
    (authenticate (some "s3cret") none = .reject403 ∧
      fetchEndpointPhase (some "s3cret") none true = .unauthorized) := by
  refine ⟨⟨rfl, (C9_authenticate_gate none (some "x") true).1 rfl⟩, ?_, ?_, rfl, ?_⟩
  · exact (C9_authenticate_gate (some "s3cret") (some "s3cret") true).2.1 "s3cret" rfl
      (by decide)
  · exact (C9_authenticate_gate (some "s3cret") none true).2.1 "s3cret" rfl (by decide)
  · exact (C9_authenticate_gate (some "s3cret") none true).2.2 rfl

/-- C10: a `fetchBodies` field that is exactly the boolean `false`
disables body fetching — every record of the batch carries the literal
non-empty placeholders `"[No Text Body]"` and `"(No HTML)"` and its
fetch trace is empty — while any other value (including absent) leaves
`shouldFetchBodies` true. -/
theorem C10_fetchBodies_strict_false (fetch : ImapItem → JsVal → FetchOutcome)
    (parse : JsData → Option ParseResult) (nowIso : String)
    (limit : Option Nat) (results : List ImapItem) (fetchBodies : JsVal) :
    (fetchBodies = .vbool false →
      ∀ x ∈ processBatchT fetch parse nowIso fetchBodies limit results,
        x.2 = [] ∧ x.1.bodyText = "[No Text Body]" ∧ x.1.bodyHtml = "(No HTML)") ∧
    (fetchBodies ≠ .vbool false → shouldFetchBodies fetchBodies = true) := by
  constructor
  · rintro rfl x hx
    obtain ⟨i, _hi, hpi⟩ := List.mem_filterMap.mp hx
    exact processItemT_no_bodies fetch parse nowIso i x hpi
  · intro hne
    cases fetchBodies with
    | vbool b =>
      cases b with
      | false => exact absurd rfl hne
      | true => rfl
    | vnull => rfl
    | vundefined => rfl
    | vnum n => rfl
    | vstr s => rfl
    | vobj a b c d => rfl
    | varr l => rfl

/-- C10 witness: the concrete record of a skipped-bodies batch carries
the placeholders with an empty fetch trace, and an absent `fetchBodies`
(undefined) enables fetching. -/
theorem C10_fetchBodies_strict_false_witness :
    ((recNB, ([] : List JsVal)).2 = [] ∧
      (recNB, ([] : List JsVal)).1.bodyText = "[No Text Body]" ∧
      (recNB, ([] : List JsVal)).1.bodyHtml = "(No HTML)") ∧
    shouldFetchBodies JsVal.vundefined = true := by
  have hmem : ((recNB, ([] : List JsVal)))
      ∈ processBatchT cFetch cParse "t" (JsVal.vbool false) none [itemE] := by
    rw [show processBatchT cFetch cParse "t" (JsVal.vbool false) none [itemE]
        = [(recNB, ([] : List JsVal))] from rfl]
    exact List.mem_singleton_self _
  exact ⟨(C10_fetchBodies_strict_false cFetch cParse "t" none [itemE]
            (JsVal.vbool false)).1 rfl (recNB, []) hmem,
         (C10_fetchBodies_strict_false cFetch cParse "t" none [itemE]
            JsVal.vundefined).2 (fun h => JsVal.noConfusion h)⟩

end ImapProxy
